import Mathlib

/-!
Shallow embedding of the mysqldump-to-parquet pipeline
(src/main.rs, src/line_parser.rs, src/parquet_writer.rs).

Conventions of the embedding:
* Rust `i64` is modelled as `Int` with the explicit `parse` range bound of
  `i64::MAX`; Rust `f64` literal payloads are modelled as the exact rational
  value denoted by the decimal literal (the claims under study concern value
  tags and signs, which `f64` negation and parsing preserve exactly).
* Fallible Rust code (`bail!`, `?`, `unwrap`/`expect` panics) is modelled with
  `Except String`; a panic and an `eyre` error are both fatal to the worker, so
  both become `Except.error`.
* The external sqlparser crate is out of scope (the repository only consumes
  its AST): its output is modelled as an input AST type mirroring exactly the
  variants the repository matches on, plus the variants needed to exercise the
  catch-all arms.
* Byte strings handled by the reassembler and the timestamp parser are
  modelled as `List Char`; the dump format is ASCII where positions matter.
-/

namespace Mysqldump

/-- Logical column types, mirroring `enum ColumnType` in src/line_parser.rs. -/
inductive ColumnType
  | String
  | Integer
  | Float
  | Timestamp
  | Boolean
  deriving DecidableEq, Repr

/-- Tagged row values, mirroring `enum ColumnValue` in src/line_parser.rs.
The `Float` payload is the exact rational denoted by the literal. -/
inductive ColumnValue
  | String (s : String)
  | Integer (i : Int)
  | Float (q : Rat)
  | Boolean (b : Bool)
  | Null
  deriving DecidableEq, Repr

/-- Mirrors `struct ColumnDef` in src/line_parser.rs. -/
structure ColumnDef where
  column_name : String
  nullable : Bool
  column_type : ColumnType
  deriving DecidableEq, Repr

/-- Mirrors `struct Schema(pub Vec<ColumnDef>)` in src/line_parser.rs. -/
abbrev Schema := List ColumnDef

/-- Mirrors `enum Line` in src/line_parser.rs: the parser's event type. -/
inductive Line
  | CreateTable (name : String) (schema : Schema)
  | InsertInto (name : String) (rows : List (List ColumnValue))
  | NOP
  deriving DecidableEq, Repr

/-! ### The sqlparser AST fragment consumed by `parse_line`

Only the shape the repository matches on is kept: payloads the code ignores
with `_` are dropped.  Variants such as `Char` that the repository does NOT
match (they fall into the `_ => bail!` arm) are included explicitly. -/

/-- Value of a `sqlparser::ast::Ident` (the code only ever reads `.value`). -/
abbrev Ident := String

/-- Declared SQL data types (`sqlparser::ast::DataType`), restricted to the
constructors named in the `match` of src/line_parser.rs lines 122-174 plus
representatives of the wildcard arm (`Char`, `Character`, `Blob`, `Json`). -/
inductive DataType
  | Varchar
  | Numeric
  | Decimal
  | BigNumeric
  | BigDecimal
  | Dec
  | Float
  | TinyInt
  | UnsignedTinyInt
  | Int2
  | UnsignedInt2
  | SmallInt
  | UnsignedSmallInt
  | MediumInt
  | UnsignedMediumInt
  | Int
  | Int4
  | Int64
  | Integer
  | UnsignedInt
  | UnsignedInt4
  | UnsignedInteger
  | BigInt
  | UnsignedBigInt
  | Int8
  | UnsignedInt8
  | Float4
  | Float64
  | Real
  | Float8
  | Double
  | DoublePrecision
  | Bool
  | Boolean
  | Date
  | Time
  | Datetime
  | Timestamp
  | Text
  | String
  | Enum
  | Custom (name : List Ident)
  | Char
  | Character
  | Blob
  | Json
  deriving DecidableEq, Repr

/-- The column options `parse_line` inspects (`sqlparser::ast::ColumnOption`):
`Null`, `NotNull`, `Unique { is_primary }`; everything else falls in the
wildcard arm and is represented by `OtherOpt`. -/
inductive ColumnOption
  | Null
  | NotNull
  | Unique (is_primary : Bool)
  | OtherOpt
  deriving DecidableEq, Repr

/-- The data-type match of src/line_parser.rs lines 122-174, including the
`Custom` arm (lines 165-172, reading `name.0[0].value`, which panics on an
empty name) and the catch-all `_ => bail!("Unsupported data type ...")`. -/
def mapDataType : DataType → Except String ColumnType
  | DataType.Varchar => .ok ColumnType.String
  | DataType.Numeric => .ok ColumnType.Integer
  | DataType.Decimal => .ok ColumnType.Integer
  | DataType.BigNumeric => .ok ColumnType.Integer
  | DataType.BigDecimal => .ok ColumnType.Integer
  | DataType.Dec => .ok ColumnType.Integer
  | DataType.Float => .ok ColumnType.Float
  | DataType.TinyInt => .ok ColumnType.Integer
  | DataType.UnsignedTinyInt => .ok ColumnType.Integer
  | DataType.Int2 => .ok ColumnType.Integer
  | DataType.UnsignedInt2 => .ok ColumnType.Integer
  | DataType.SmallInt => .ok ColumnType.Integer
  | DataType.UnsignedSmallInt => .ok ColumnType.Integer
  | DataType.MediumInt => .ok ColumnType.Integer
  | DataType.UnsignedMediumInt => .ok ColumnType.Integer
  | DataType.Int => .ok ColumnType.Integer
  | DataType.Int4 => .ok ColumnType.Integer
  | DataType.Int64 => .ok ColumnType.Integer
  | DataType.Integer => .ok ColumnType.Integer
  | DataType.UnsignedInt => .ok ColumnType.Integer
  | DataType.UnsignedInt4 => .ok ColumnType.Integer
  | DataType.UnsignedInteger => .ok ColumnType.Integer
  | DataType.BigInt => .ok ColumnType.Integer
  | DataType.UnsignedBigInt => .ok ColumnType.Integer
  | DataType.Int8 => .ok ColumnType.Integer
  | DataType.UnsignedInt8 => .ok ColumnType.Integer
  | DataType.Float4 => .ok ColumnType.Float
  | DataType.Float64 => .ok ColumnType.Float
  | DataType.Real => .ok ColumnType.Float
  | DataType.Float8 => .ok ColumnType.Float
  | DataType.Double => .ok ColumnType.Float
  | DataType.DoublePrecision => .ok ColumnType.Float
  | DataType.Bool => .ok ColumnType.Boolean
  | DataType.Boolean => .ok ColumnType.Boolean
  | DataType.Date => .ok ColumnType.Timestamp
  | DataType.Time => .ok ColumnType.Timestamp
  | DataType.Datetime => .ok ColumnType.Timestamp
  | DataType.Timestamp => .ok ColumnType.Timestamp
  | DataType.Text => .ok ColumnType.String
  | DataType.String => .ok ColumnType.String
  | DataType.Enum => .ok ColumnType.String
  | DataType.Custom name =>
    match name.head? with
    | none => .error "index out of bounds"
    | some type_name =>
      if type_name = "longtext" then .ok ColumnType.String
      else if type_name = "mediumtext" then .ok ColumnType.String
      else .error "Unsupported data type"
  | _ => .error "Unsupported data type"

/-- The nullability computation of src/line_parser.rs lines 178-194: the
iterator chain `options.iter().map(...).filter(Option::is_some).next()
.flatten().unwrap_or(true)`, with `PRIMARY KEY` mapped through the guard
`Unique { is_primary } if is_primary == true`. -/
def nullable_from_options (options : List ColumnOption) : Bool :=
  ((((options.map fun column_option =>
      match column_option with
      | ColumnOption.Null => some true
      | ColumnOption.NotNull => some false
      | ColumnOption.Unique is_primary =>
        if is_primary then some false else none
      | ColumnOption.OtherOpt => none).filter Option.isSome).head?).join).getD true

/-! ### Numeric literal parsing (Rust `str::parse`)

sqlparser `Value::Number` payloads are sign-free tokens made of digits and at
most one dot; the models below cover exactly those (exotic forms that Rust's
`parse` would also accept, like exponents, never reach this code from the
tokenizer and are modelled as failures). -/

/-- Value of a non-empty all-digit character list; `none` otherwise. -/
def digitsToNat? (l : List Char) : Option Nat :=
  if l.isEmpty then none
  else if l.all Char.isDigit then
    some (l.foldl (fun a c => a * 10 + (c.toNat - 48)) 0)
  else none

/-- Rust `num.parse::<i64>()` on a sign-free numeric token: all digits and the
value at most `i64::MAX`. -/
def parse_i64 (s : String) : Option Int := do
  let n ← digitsToNat? s.toList
  if n ≤ 9223372036854775807 then some (Int.ofNat n) else none

/-- Exact value of the digit list interpreted in base 10 (0 when empty). -/
def decDigitsVal (l : List Char) : Nat :=
  l.foldl (fun a c => a * 10 + (c.toNat - 48)) 0

/-- Rust `num.parse::<f64>()` on a numeric token containing a dot:
`digits.digits` with at least one digit overall, valued exactly. -/
def parse_f64 (s : String) : Option Rat :=
  match s.toList.splitOn '.' with
  | [ip, fp] =>
    if ip.all Char.isDigit && fp.all Char.isDigit && (!ip.isEmpty || !fp.isEmpty) then
      some ((decDigitsVal ip : Rat) + (decDigitsVal fp : Rat) / ((10 : Rat) ^ fp.length))
    else none
  | _ => none

/-- The sqlparser literal values matched in src/line_parser.rs lines 243-259;
`OtherValue` stands for the variants of the `_ => bail!` arm. -/
inductive Value
  | Number (s : String)
  | SingleQuotedString (s : String)
  | Boolean (b : Bool)
  | Null
  | OtherValue
  deriving DecidableEq, Repr

/-- The sqlparser expressions matched in src/line_parser.rs lines 229-265:
`UnaryOp` (with its operator reduced to whether it is `Minus`), `Value`, and
a representative of the catch-all arm. -/
inductive Expr
  | Value (v : Value)
  | UnaryOp (op_is_minus : Bool) (e : Expr)
  | OtherExpr
  deriving DecidableEq, Repr

/-- Parsing of one bare literal (`Expr::Value` arm, src/line_parser.rs lines
242-261): no dot means `Integer`, a dot means `Float`. -/
def parse_number_value (num : String) : Except String ColumnValue :=
  if num.toList.contains '.' then
    match parse_f64 num with
    | some q => .ok (ColumnValue.Float q)
    | none => .error "invalid float literal"
  else
    match parse_i64 num with
    | some n => .ok (ColumnValue.Integer n)
    | none => .error "invalid digit found in string"

/-- Parsing of one value expression of an insert row (the `match value` of
src/line_parser.rs lines 229-265).  A unary minus is only accepted directly
over a numeric literal; the sign is folded into the parsed number. -/
def parse_value_expr : Expr → Except String ColumnValue
  | Expr.UnaryOp op_is_minus e =>
    if op_is_minus then
      match e with
      | Expr.Value (Value.Number num) =>
        if num.toList.contains '.' then
          match parse_f64 num with
          | some q => .ok (ColumnValue.Float (-q))
          | none => .error "invalid float literal"
        else
          match parse_i64 num with
          | some n => .ok (ColumnValue.Integer (-n))
          | none => .error "invalid digit found in string"
      | _ => .error "Unknown expr with a minus operator"
    else .error "Unsupported value"
  | Expr.Value v =>
    match v with
    | Value.Number num => parse_number_value num
    | Value.SingleQuotedString s => .ok (ColumnValue.String s)
    | Value.Boolean b => .ok (ColumnValue.Boolean b)
    | Value.Null => .ok ColumnValue.Null
    | Value.OtherValue => .error "Unsupported syntax for value"
  | Expr.OtherExpr => .error "Unsupported value"

/-- One column of a `CREATE TABLE` statement as delivered by sqlparser
(`sqlparser::ast::ColumnDef`): the code reads `name.value`, `data_type` and
`options` (each option's `.option` field). -/
structure ColumnDefAst where
  name : String
  data_type : DataType
  options : List ColumnOption
  deriving DecidableEq, Repr

/-- The `source` body of an insert (`SetExpr`): either `Values` rows or some
other query shape (the `else` arm of src/line_parser.rs line 270). -/
inductive InsertSource
  | Values (rows : List (List Expr))
  | OtherSource
  deriving DecidableEq, Repr

/-- A sqlparser statement, restricted to the three shapes matched in
src/line_parser.rs: `CreateTable` (multi-part object name and columns),
`Insert` (multi-part table name and optional source), anything else. -/
inductive Statement
  | CreateTable (name : List Ident) (columns : List ColumnDefAst)
  | Insert (table_name : List Ident) (source : Option InsertSource)
  | OtherStmt
  deriving DecidableEq, Repr

/-- The `CreateTable` branch of `parse_line` (src/line_parser.rs lines
88-200): table name from `name.0[0]` (an empty object name is a fatal index
panic), then one `ColumnDef` per declared column. -/
def parse_create_table (name : List Ident) (columns : List ColumnDefAst) :
    Except String Line :=
  match name with
  | [] => .error "index out of bounds"
  | table_name :: _ => do
    let schema ← columns.mapM fun column => do
      let column_type ← mapDataType column.data_type
      pure (ColumnDef.mk column.name (nullable_from_options column.options) column_type)
    .ok (Line.CreateTable table_name schema)

/-- The `Insert` branch of `parse_line` (src/line_parser.rs lines 201-273):
table name from `table_name.0.first()`, a `VALUES` source is required, and
every value expression of every row is parsed. -/
def parse_insert (table_name : List Ident) (source : Option InsertSource) :
    Except String Line :=
  match table_name.head? with
  | none => .error "Unable to get table name from INSERT INTO statement!"
  | some tn =>
    match source with
    | none => .error "We are expecting a INSERT INTO ... VALUES kind of statement"
    | some (InsertSource.Values vrows) => do
      let rows ← vrows.mapM fun r => r.mapM parse_value_expr
      .ok (Line.InsertInto tn rows)
    | some InsertSource.OtherSource => .error "No VALUES in INSERT INTO statement!"

/-- `parse_line` of src/line_parser.rs, over the statement list the external
sqlparser crate returns for the input string: zero statements is a `NOP`, one
statement is dispatched on its shape, more than one is fatal. -/
def parse_line (stmts : List Statement) : Except String Line :=
  match stmts with
  | [] => .ok Line.NOP
  | [stmt] =>
    match stmt with
    | Statement.CreateTable name columns => parse_create_table name columns
    | Statement.Insert table_name source => parse_insert table_name source
    | Statement.OtherStmt => .ok Line.NOP
  | _ => .error "Too much statement in line"

/-! ### Reassembler (src/main.rs) -/

/-- Rust `line.contains(pat)`: some tail of `s` starts with `pat`. -/
def contains_sub (s pat : List Char) : Bool :=
  s.tails.any fun t => pat.isPrefixOf t

/-- One iteration of the character loop of `cleanup_key` (src/main.rs lines
157-172) on the state (output so far, depth): `(` increments the depth, `)`
decrements it and is dropped when the new depth is 1, any character at depth
at least 2 is dropped, everything else is pushed. -/
def cleanup_key_step (st : List Char × Int) (c : Char) : List Char × Int :=
  let d1 : Int := if c = '(' then st.2 + 1 else st.2
  let d2 : Int := if c = ')' then d1 - 1 else d1
  if c = ')' ∧ d2 = 1 then (st.1, d2)
  else if 2 ≤ d2 then (st.1, d2)
  else (st.1 ++ [c], d2)

/-- `cleanup_key` of src/main.rs lines 154-177: lines containing `"KEY "` are
filtered by the depth walk, other lines are returned unchanged. -/
def cleanup_key (line : List Char) : List Char :=
  if contains_sub line ("KEY ".toList) then
    (line.foldl cleanup_key_step ([], 0)).1
  else line

/-- Rust `str::trim` on the character list model. -/
def trimList (l : List Char) : List Char :=
  ((l.dropWhile Char.isWhitespace).reverse.dropWhile Char.isWhitespace).reverse

/-- The comment/empty test of src/main.rs lines 123-126:
`line.starts_with("--") || line.starts_with("/*") && line.ends_with("*/;")
|| line.is_empty()`. -/
def is_comment_or_empty (line : List Char) : Bool :=
  ("--".toList.isPrefixOf line) ||
    (("/*".toList.isPrefixOf line) && ("*/;".toList.isSuffixOf line)) ||
    line.isEmpty

/-- Observable state of the reader loop of `main` (src/main.rs lines
110-141): the statements sent downstream so far, the accumulating statement,
and the warning diagnostics written so far (the loop contains no diagnostic
emission at all, so this list is never extended). -/
structure ReaderState where
  emitted : List (List Char)
  current_statement : List Char
  warnings : List (List Char)
  deriving DecidableEq, Repr

/-- One iteration of the reader loop for one raw input line: trim, drop
comments and empty lines, run `cleanup_key` when the accumulator starts with
`CREATE TABLE`, append, and flush the trimmed accumulator downstream when it
now ends with `;`. -/
def reader_step (st : ReaderState) (raw : List Char) : ReaderState :=
  let line := trimList raw
  if is_comment_or_empty line then st
  else
    let cur :=
      if "CREATE TABLE".toList.isPrefixOf st.current_statement then
        st.current_statement ++ cleanup_key line
      else
        st.current_statement ++ line
    if cur.getLast? = some ';' then
      { st with emitted := st.emitted ++ [trimList cur], current_statement := [] }
    else
      { st with current_statement := cur }

/-- The whole reader loop of `main` on a finite input: end-of-stream simply
leaves the loop (src/main.rs lines 114-120 break, then lines 142-145 drop the
sender and finish the progress bar) — nothing is done with a leftover
accumulator. -/
def run_reader (lines : List (List Char)) : ReaderState :=
  lines.foldl reader_step ⟨[], [], []⟩

/-! ### ColumnarWriter (src/parquet_writer.rs) -/

/-- Arrow data types produced by `Schema::to_arrow_schema`
(src/line_parser.rs lines 40-46). -/
inductive ArrowDataType
  | Utf8
  | Int64
  | Float64
  | TimestampSecond
  deriving DecidableEq, Repr

/-- An Arrow field: lowercased name, data type, nullability. -/
structure ArrowField where
  name : String
  data_type : ArrowDataType
  nullable : Bool
  deriving DecidableEq, Repr

/-- The per-type arm of `Schema::to_arrow_schema`: `Boolean` hits `todo!()`,
a fatal panic. -/
def arrow_type_of : ColumnType → Except String ArrowDataType
  | ColumnType.String => .ok ArrowDataType.Utf8
  | ColumnType.Integer => .ok ArrowDataType.Int64
  | ColumnType.Float => .ok ArrowDataType.Float64
  | ColumnType.Timestamp => .ok ArrowDataType.TimestampSecond
  | ColumnType.Boolean => .error "not yet implemented"

/-- `Schema::to_arrow_schema` of src/line_parser.rs lines 29-51. -/
def to_arrow_schema (schema : Schema) : Except String (List ArrowField) :=
  schema.mapM fun cd =>
    (arrow_type_of cd.column_type).map fun t =>
      ArrowField.mk cd.column_name.toLower t cd.nullable

/-- A value appended to an Arrow column builder; timestamps arrive as their
seconds-since-epoch integer. -/
inductive CellValue
  | cellString (s : String)
  | cellInt (i : Int)
  | cellFloat (q : Rat)
  | cellBool (b : Bool)
  | cellNull
  deriving DecidableEq, Repr

/-- Lookup of an `Option α` that the code `unwrap`s/`expect`s: `none` is a
fatal panic carrying the given message. -/
def expectSome {α : Type} : Option α → String → Except String α
  | some a, _ => .ok a
  | none, msg => .error msg

/-- Rust slice-and-parse `value[a..b].parse::<u32>()` on the character model:
fatal when the slice runs past the end of the string or contains a non-digit
(a `+` sign, which Rust's `u32` parse would also take, cannot occur in a dump
timestamp and is modelled as a failure). -/
def slice_parse_nat (s : List Char) (a b : Nat) : Option Nat :=
  if b ≤ s.length then digitsToNat? ((s.drop a).take (b - a)) else none

/-- Rust `value[0..4].parse::<i32>()` for the year: as `slice_parse_nat` but
a leading `-` sign is honoured, as Rust's signed parse accepts it. -/
def slice_parse_year (s : List Char) : Option Int :=
  if 4 ≤ s.length then
    match s.take 4 with
    | '-' :: rest => (digitsToNat? rest).map fun n => -(n : Int)
    | l => (digitsToNat? l).map fun n => (n : Int)
  else none

/-- Proleptic Gregorian leap year. -/
def is_leap (y : Int) : Bool :=
  (y % 4 = 0 && ¬ y % 100 = 0) || y % 400 = 0

/-- Number of days of month `m` of year `y` (0 for an out-of-range month). -/
def days_in_month (y : Int) (m : Nat) : Nat :=
  match m with
  | 1 => 31
  | 2 => if is_leap y then 29 else 28
  | 3 => 31
  | 4 => 30
  | 5 => 31
  | 6 => 30
  | 7 => 31
  | 8 => 31
  | 9 => 30
  | 10 => 31
  | 11 => 30
  | 12 => 31
  | _ => 0

/-- Validity test of `NaiveDate::from_ymd_opt` (the slice years, between -999
and 9999, are always inside chrono's supported year range). -/
def valid_ymd (y : Int) (m d : Nat) : Bool :=
  1 ≤ m && m ≤ 12 && 1 ≤ d && d ≤ days_in_month y m

/-- Validity test of `NaiveTime::from_hms_opt`. -/
def valid_hms (h mi se : Nat) : Bool :=
  h ≤ 23 && mi ≤ 59 && se ≤ 59

/-- Days from 1970-01-01 to the civil date `y-m-d` in the proleptic Gregorian
calendar (the value returned by chrono's date arithmetic). -/
def days_from_civil (y : Int) (m d : Nat) : Int :=
  let y2 : Int := if m ≤ 2 then y - 1 else y
  let era : Int := Int.fdiv y2 400
  let yoe : Nat := (y2 - era * 400).toNat
  let mp : Nat := if 2 < m then m - 3 else m + 9
  let doy : Nat := (153 * mp + 2) / 5 + d - 1
  let doe : Nat := yoe * 365 + yoe / 4 - yoe / 100 + doy
  era * 146097 + (doe : Int) - 719468

/-- The brute-force timestamp parsing of `CurrentParquetWriter::write_rows`
(src/parquet_writer.rs lines 173-192): fixed slices `0..4`, `5..7`, `8..10`,
`11..13`, `14..16`, `17..19` are parsed and `unwrap`ped, the civil date and
time are built with `expect` messages, and `and_local_timezone(Utc)` (always
a `Single` mapping for `Utc`) yields `.timestamp()`, the seconds since the
epoch. -/
def parse_timestamp (s : List Char) : Except String Int := do
  let year ← expectSome (slice_parse_year s) "invalid digit found in string"
  let month ← expectSome (slice_parse_nat s 5 7) "invalid digit found in string"
  let day ← expectSome (slice_parse_nat s 8 10) "invalid digit found in string"
  let hour ← expectSome (slice_parse_nat s 11 13) "invalid digit found in string"
  let minute ← expectSome (slice_parse_nat s 14 16) "invalid digit found in string"
  let second ← expectSome (slice_parse_nat s 17 19) "invalid digit found in string"
  if valid_ymd year month day then
    if valid_hms hour minute second then
      .ok (days_from_civil year month day * 86400 +
        ((hour * 3600 + minute * 60 + second : Nat) : Int))
    else .error "Unable to create time"
  else .error "Unable to create date"

/-- The per-cell dispatch of `CurrentParquetWriter::write_rows`
(src/parquet_writer.rs lines 132-209): for each schema column type, which
value tags are accepted and what is appended; every `panic!` arm is an
error. -/
def encode_value (column_type : ColumnType) (column_value : ColumnValue) :
    Except String CellValue :=
  match column_type with
  | ColumnType.String =>
    match column_value with
    | ColumnValue.String s => .ok (CellValue.cellString s)
    | ColumnValue.Null => .ok CellValue.cellNull
    | _ => .error "Value for column should be a string"
  | ColumnType.Integer =>
    match column_value with
    | ColumnValue.Integer i => .ok (CellValue.cellInt i)
    | ColumnValue.Null => .ok CellValue.cellNull
    | _ => .error "Value for column should be an integer"
  | ColumnType.Float =>
    match column_value with
    | ColumnValue.Float q => .ok (CellValue.cellFloat q)
    | ColumnValue.Integer i => .ok (CellValue.cellFloat (i : Rat))
    | ColumnValue.Null => .ok CellValue.cellNull
    | _ => .error "Value for column should be a float"
  | ColumnType.Timestamp =>
    match column_value with
    | ColumnValue.String s => (parse_timestamp s.toList).map CellValue.cellInt
    | ColumnValue.Null => .ok CellValue.cellNull
    | _ => .error "Value for column should be a string"
  | ColumnType.Boolean =>
    match column_value with
    | ColumnValue.Boolean b => .ok (CellValue.cellBool b)
    | ColumnValue.Null => .ok CellValue.cellNull
    | _ => .error "Value for column should be a string"

/-- One row of `write_rows`: position `i` of the row is encoded against
schema column `i` (`self.schema.0[i]`, an index panic when the row is longer
than the schema). -/
def encode_row (schema : Schema) (row : List ColumnValue) :
    Except String (List CellValue) :=
  if schema.length < row.length then .error "index out of bounds"
  else (schema.zip row).mapM fun p => encode_value p.1.column_type p.2

/-- `CurrentParquetWriter::write_rows` (src/parquet_writer.rs lines 120-218):
encode every row, then assemble the record batch;
`RecordBatch::try_new`'s validation that all finished columns have one common
length is modelled as the check that every row has exactly the schema's
width (vacuous for an empty batch). -/
def write_rows (schema : Schema) (rows : List (List ColumnValue)) :
    Except String (List (List CellValue)) := do
  let cells ← rows.mapM (encode_row schema)
  if rows.all fun r => r.length = schema.length then .ok cells
  else .error "RecordBatch column length mismatch"

/-- Mirrors `struct CurrentParquetWriter` (the file handle and Arrow writer
are represented by their observable effects in the action trace). -/
structure CurrentWriter where
  row_count : Nat
  table_name : String
  schema : Schema
  deriving DecidableEq, Repr

/-- Mirrors the state of `struct ParquetWriter`: at most the one current
per-table writer. -/
structure WriterState where
  current_writer : Option CurrentWriter
  deriving DecidableEq, Repr

/-- Observable side effects of the writer, in program order: file creation
(`File::create`), encoder opening (`ArrowWriter::try_new`), encoder closing
(`CurrentParquetWriter::finish`), the unknown-table diagnostic (`eprintln!`),
and a record-batch append. -/
inductive Action
  | createFile (file_name : String)
  | openEncoder (table_name : String)
  | closeEncoder (table_name : String)
  | logUnknownTable
  | appendBatch (table_name : String) (rows : Nat)
  deriving DecidableEq, Repr

/-- `ParquetWriter::new_line` (src/parquet_writer.rs lines 67-108), returning
the next state and the actions performed in their program order.  On
`CreateTable` the code first builds the Arrow schema (fatal on a `Boolean`
column), creates the file and opens the new encoder, and only afterwards
finishes the previous writer returned by `Option::replace`.  On `InsertInto`
a table-name mismatch is only logged; a match appends a batch. -/
def new_line (w : WriterState) : Line → Except String (WriterState × List Action)
  | Line.CreateTable table_name schema => do
    let _arrow_schema ← to_arrow_schema schema
    let close_actions :=
      match w.current_writer with
      | some previous_writer => [Action.closeEncoder previous_writer.table_name]
      | none => []
    .ok ({ current_writer := some (CurrentWriter.mk 0 table_name schema) },
      [Action.createFile (table_name ++ ".parquet"), Action.openEncoder table_name]
        ++ close_actions)
  | Line.InsertInto table_name rows =>
    if w.current_writer.map CurrentWriter.table_name ≠ some table_name then
      .ok (w, [Action.logUnknownTable])
    else
      match w.current_writer with
      | some current_writer => do
        let _cells ← write_rows current_writer.schema rows
        .ok ({ current_writer := some { current_writer with
                row_count := current_writer.row_count + rows.length } },
          [Action.appendBatch table_name rows.length])
      | none => .ok (w, [Action.logUnknownTable])
  | Line.NOP => .ok (w, [])

/-- The writer thread's receive loop (src/parquet_writer.rs lines 54-63)
from a given state: fold `new_line` over the event list, accumulating the
action trace. -/
def run_writer_from (w : WriterState) : List Line →
    Except String (WriterState × List Action)
  | [] => .ok (w, [])
  | l :: ls => do
    let (w2, acts) ← new_line w l
    let (w3, rest) ← run_writer_from w2 ls
    .ok (w3, acts ++ rest)

/-- `Drop for ParquetWriter` (src/parquet_writer.rs lines 35-45): on
shutdown any still-open writer is finished. -/
def drop_actions (w : WriterState) : List Action :=
  match w.current_writer with
  | some current_writer => [Action.closeEncoder current_writer.table_name]
  | none => []

/-- A complete writer run: start with no current writer, consume the whole
event stream, then run the `Drop` teardown. -/
def run_writer (lines : List Line) : Except String (WriterState × List Action) := do
  let (w, acts) ← run_writer_from (WriterState.mk none) lines
  .ok (w, acts ++ drop_actions w)

/-! ### Trace observations and specification-side definitions -/

/-- The file name created by a `createFile` action, if any. -/
def created_file_name : Action → Option String
  | Action.createFile file_name => some file_name
  | _ => none

/-- All file names created along a trace, in order. -/
def created_files (acts : List Action) : List String :=
  acts.filterMap created_file_name

/-- Number of distinct output files a trace produces (creating a path twice
truncates the same file). -/
def output_file_count (acts : List Action) : Nat :=
  (created_files acts).dedup.length

/-- Table names of the `CreateTable` events of a stream, in order. -/
def create_table_names (lines : List Line) : List String :=
  lines.filterMap fun l =>
    match l with
    | Line.CreateTable name _ => some name
    | _ => none

/-- The `CreateTable` statements of a stream, as (table name, schema) pairs. -/
def create_table_stmts (lines : List Line) : List (String × Schema) :=
  lines.filterMap fun l =>
    match l with
    | Line.CreateTable name schema => some (name, schema)
    | _ => none

/-- Number of distinct `CREATE TABLE` statements of a stream. -/
def distinct_create_table_count (lines : List Line) : Nat :=
  (create_table_stmts lines).dedup.length

/-- Whether an action opens an encoder. -/
def is_open_encoder : Action → Bool
  | Action.openEncoder _ => true
  | _ => false

/-- Whether an action closes an encoder. -/
def is_close_encoder : Action → Bool
  | Action.closeEncoder _ => true
  | _ => false

/-- The net effect of one action on the number of open encoders. -/
def open_delta : Action → Int
  | Action.openEncoder _ => 1
  | Action.closeEncoder _ => -1
  | _ => 0

/-- The number of open encoders before, between and after the actions of a
trace, starting from `start` open encoders. -/
def open_counts (start : Int) (acts : List Action) : List Int :=
  acts.scanl (fun c a => c + open_delta a) start

/-- The largest number of simultaneously open encoders along a trace. -/
def max_open (start : Int) (acts : List Action) : Int :=
  (open_counts start acts).foldl max start

/-- The ordering asserted by the specification for the `Open` transition: a
`closeEncoder` action comes before any `openEncoder` action of the trace. -/
def closes_before_opens (acts : List Action) : Bool :=
  match acts.findIdx? is_close_encoder, acts.findIdx? is_open_encoder with
  | some i, some j => decide (i < j)
  | _, _ => true

/-- Specification-side restatement of the key-normalization filter, written
from the spec's words: walk the line with a depth counter; a character at
depth at least 2 is skipped, and the closing parenthesis that returns the
depth from 2 to 1 is skipped. -/
def key_filter_spec : Int → List Char → List Char
  | _, [] => []
  | d, c :: rest =>
    let d2 : Int := if c = '(' then d + 1 else if c = ')' then d - 1 else d
    if 2 ≤ d2 then key_filter_spec d2 rest
    else if c = ')' ∧ d2 = 1 then key_filter_spec d2 rest
    else c :: key_filter_spec d2 rest

/-- Specification-side restatement of nullability, written from the spec's
words: scan the options in declared order, the first of `NULL`, `NOT NULL`,
`PRIMARY KEY` wins, default nullable. -/
def nullable_spec : List ColumnOption → Bool
  | [] => true
  | ColumnOption.Null :: _ => true
  | ColumnOption.NotNull :: _ => false
  | ColumnOption.Unique true :: _ => false
  | _ :: rest => nullable_spec rest

/-- Negation of a tagged value on its numeric payload (the spec's "sign is
folded into the parsed number"). -/
def neg_column_value : ColumnValue → ColumnValue
  | ColumnValue.Integer n => ColumnValue.Integer (-n)
  | ColumnValue.Float q => ColumnValue.Float (-q)
  | v => v

/-- The string family of the claim under study, without `CHAR`: `VARCHAR`,
`TEXT`, the `STRING` keyword, `ENUM`, and the custom names `longtext` and
`mediumtext`. -/
def string_family : DataType → Bool
  | DataType.Varchar => true
  | DataType.Text => true
  | DataType.String => true
  | DataType.Enum => true
  | DataType.Custom name =>
    name.head? = some "longtext" || name.head? = some "mediumtext"
  | _ => false

/-- The parenthesis depth after processing one character of the key
normalization walk. -/
def key_depth (d : Int) (c : Char) : Int :=
  if c = '(' then d + 1 else if c = ')' then d - 1 else d

/-! ## Theorems -/

/-- One step of the `cleanup_key` walk, rephrased with `key_depth`: the
character is dropped exactly when the new depth is at least 2 or it is the
closing parenthesis that brings the depth to 1. -/
theorem cleanup_key_step_eq (acc : List Char) (d : Int) (c : Char) :
    cleanup_key_step (acc, d) c =
      ((if 2 ≤ key_depth d c ∨ (c = ')' ∧ key_depth d c = 1) then acc
        else acc ++ [c]), key_depth d c) := by
  have hne : ¬ (('(' : Char) = ')') := by decide
  by_cases hop : c = '('
  · subst hop
    simp only [cleanup_key_step, key_depth, if_pos rfl, if_neg hne, hne,
      false_and, or_false, ite_true, ite_false]
    split_ifs <;> rfl
  · by_cases hcl : c = ')'
    · subst hcl
      simp only [cleanup_key_step, key_depth, if_neg hop, if_pos rfl, true_and,
        ite_true, ite_false]
      split_ifs <;> first | rfl | omega
    · simp only [cleanup_key_step, key_depth, if_neg hop, if_neg hcl, hcl,
        false_and, or_false, ite_true, ite_false]
      split_ifs <;> rfl

/-- The character fold of `cleanup_key` computes the specification-side
filter, for any starting accumulator and depth. -/
theorem cleanup_fold (l : List Char) : ∀ (acc : List Char) (d : Int),
    (l.foldl cleanup_key_step (acc, d)).1 = acc ++ key_filter_spec d l := by
  induction l with
  | nil => intro acc d; simp [key_filter_spec]
  | cons c rest ih =>
    intro acc d
    rw [List.foldl_cons, cleanup_key_step_eq, ih]
    simp only [key_filter_spec, key_depth]
    split_ifs with h1 h2 h3 h4 <;> simp_all

set_option maxRecDepth 8000 in
/-- C3: a line containing `KEY ` is rewritten by the depth walk — every
character at depth at least 2 is removed, as is the closing parenthesis
returning the depth from 2 to 1 — and any other line is returned unchanged;
the example of the claim is reproduced. -/
theorem cleanup_key_matches_spec :
    (∀ line : List Char,
      (contains_sub line ("KEY ".toList) = true →
        cleanup_key line = key_filter_spec 0 line) ∧
      (contains_sub line ("KEY ".toList) = false →
        cleanup_key line = line)) ∧
    cleanup_key ("KEY `i` (`c`(144),`p`(12))".toList) =
      ("KEY `i` (`c`,`p`)".toList) := by
  constructor
  · intro line
    constructor
    · intro h
      unfold cleanup_key
      rw [h]
      simpa using cleanup_fold line [] 0
    · intro h
      unfold cleanup_key
      rw [h]
      simp
  · decide

set_option maxRecDepth 8000 in
/-- Witness for C3 at a concrete filtered line. -/
theorem cleanup_key_matches_spec_witness :
    cleanup_key ("FOREIGN KEY (`a`(12))".toList) =
      key_filter_spec 0 ("FOREIGN KEY (`a`(12))".toList) :=
  (cleanup_key_matches_spec.1 _).1 (by decide)

/-- C6: the iterator-chain nullability computation of `parse_line` agrees
with the declared-order scan of the specification — the first of `NULL`,
`NOT NULL`, `PRIMARY KEY` wins, and the default is nullable. -/
theorem nullable_from_options_eq_spec :
    ∀ options : List ColumnOption,
      nullable_from_options options = nullable_spec options := by
  intro options
  induction options with
  | nil => rfl
  | cons o rest ih =>
    cases o with
    | Null => simp [nullable_from_options, nullable_spec]
    | NotNull => simp [nullable_from_options, nullable_spec]
    | Unique b =>
      cases b with
      | true => simp [nullable_from_options, nullable_spec]
      | false =>
        simp only [nullable_from_options, nullable_spec, List.map_cons] at ih ⊢
        simpa using ih
    | OtherOpt =>
      simp only [nullable_from_options, nullable_spec, List.map_cons] at ih ⊢
      simpa using ih

/-- C7: an `InsertInto` event whose table does not match the current writer
(including the case of no current writer at all) only produces the
unknown-table diagnostic: the writer state is returned unchanged and the
outcome is not an error. -/
theorem insert_unknown_table_discarded :
    ∀ (w : WriterState) (table_name : String) (rows : List (List ColumnValue)),
      w.current_writer.map CurrentWriter.table_name ≠ some table_name →
      new_line w (Line.InsertInto table_name rows) =
        Except.ok (w, [Action.logUnknownTable]) := by
  intro w table_name rows h
  simp only [new_line]
  rw [if_pos h]

/-- Witness for C7: an insert for table B while A is open. -/
theorem insert_unknown_table_discarded_witness :
    new_line (WriterState.mk (some (CurrentWriter.mk 0 "A" [])))
        (Line.InsertInto "B" []) =
      Except.ok (WriterState.mk (some (CurrentWriter.mk 0 "A" [])),
        [Action.logUnknownTable]) :=
  insert_unknown_table_discarded _ "B" [] (by decide)

/-- C1 counterexample: on `CreateTable "B"` while table A is open, the code
creates the new file and opens the new encoder BEFORE closing the old one:
no close action precedes the open action, and two encoders are open at the
peak of the transition, refuting the claimed close-then-open order and the
claimed bound of one open encoder. -/
theorem create_table_opens_before_closing :
    new_line (WriterState.mk (some (CurrentWriter.mk 0 "A" [])))
        (Line.CreateTable "B" []) =
      Except.ok (WriterState.mk (some (CurrentWriter.mk 0 "B" [])),
        [Action.createFile "B.parquet", Action.openEncoder "B",
         Action.closeEncoder "A"]) ∧
    closes_before_opens
        [Action.createFile "B.parquet", Action.openEncoder "B",
         Action.closeEncoder "A"] = false ∧
    max_open 1
        [Action.createFile "B.parquet", Action.openEncoder "B",
         Action.closeEncoder "A"] = 2 :=
  ⟨rfl, by decide, by decide⟩

/-- C1 amended: on `CreateTable` in the `Open` state (with a translatable
schema) the writer emits, in order, the creation of the new file, the
opening of the new encoder, and then the closing of the previously live
encoder, ending in the `Open` state for the new table with a zero row
count. -/
theorem create_table_transition :
    ∀ (w : WriterState) (cw : CurrentWriter) (t : String) (s : Schema)
      (fs : List ArrowField),
      w.current_writer = some cw →
      to_arrow_schema s = Except.ok fs →
      new_line w (Line.CreateTable t s) =
        Except.ok (WriterState.mk (some (CurrentWriter.mk 0 t s)),
          [Action.createFile (t ++ ".parquet"), Action.openEncoder t,
           Action.closeEncoder cw.table_name]) := by
  intro w cw t s fs h1 h2
  simp [new_line, h1, h2, Bind.bind, Except.bind]

/-- Witness for C1 at a concrete open writer and event. -/
theorem create_table_transition_witness :
    new_line (WriterState.mk (some (CurrentWriter.mk 0 "A" [])))
        (Line.CreateTable "B" []) =
      Except.ok (WriterState.mk (some (CurrentWriter.mk 0 "B" [])),
        [Action.createFile ("B" ++ ".parquet"), Action.openEncoder "B",
         Action.closeEncoder (CurrentWriter.mk 0 "A" []).table_name]) :=
  create_table_transition _ _ "B" [] [] rfl rfl

/-- C2 counterexample: a column declared `CHAR` is not mapped to the STRING
logical type — it falls into the catch-all arm and is a fatal
`Unsupported data type` parse error, both at the type-mapping level and for
a whole table definition. -/
theorem char_is_fatal_not_string :
    mapDataType DataType.Char = Except.error "Unsupported data type" ∧
    parse_line [Statement.CreateTable ["t"] [ColumnDefAst.mk "c" DataType.Char []]] =
      Except.error "Unsupported data type" :=
  ⟨rfl, rfl⟩

/-- C2 amended: every declared type of the family VARCHAR, TEXT, STRING,
ENUM, `longtext`, `mediumtext` maps to the STRING logical type, while `CHAR`
is a fatal parse error; a table declaring the five accepted spellings parses
to an all-STRING schema. -/
theorem string_family_maps_to_string :
    (∀ dt : DataType, string_family dt = true →
      mapDataType dt = Except.ok ColumnType.String) ∧
    mapDataType DataType.Char = Except.error "Unsupported data type" ∧
    parse_line [Statement.CreateTable ["t"]
        [ColumnDefAst.mk "a" DataType.Varchar [],
         ColumnDefAst.mk "b" DataType.Text [],
         ColumnDefAst.mk "c" DataType.Enum [],
         ColumnDefAst.mk "d" (DataType.Custom ["longtext"]) [],
         ColumnDefAst.mk "e" (DataType.Custom ["mediumtext"]) []]] =
      Except.ok (Line.CreateTable "t"
        [ColumnDef.mk "a" true ColumnType.String,
         ColumnDef.mk "b" true ColumnType.String,
         ColumnDef.mk "c" true ColumnType.String,
         ColumnDef.mk "d" true ColumnType.String,
         ColumnDef.mk "e" true ColumnType.String]) := by
  refine ⟨?_, rfl, rfl⟩
  intro dt h
  cases dt with
  | Custom name =>
    cases name with
    | nil => simp [string_family] at h
    | cons hd tl =>
      simp only [string_family, List.head?_cons, Option.some.injEq, Bool.or_eq_true,
        decide_eq_true_eq] at h
      rcases h with h | h <;> simp [mapDataType, h]
  | _ => first
      | rfl
      | simp [string_family] at h

/-- Witness for C2 at the VARCHAR type. -/
theorem string_family_maps_to_string_witness :
    mapDataType DataType.Varchar = Except.ok ColumnType.String :=
  string_family_maps_to_string.1 DataType.Varchar rfl

/-- C10: for a multi-part table name, both the `CreateTable` and the
`Insert` branches of `parse_line` use the FIRST identifier component as the
table name; in particular `db.table` is treated as table `db`. -/
theorem table_name_is_first_component :
    (∀ (p : Ident) (ps : List Ident) (columns : List ColumnDefAst)
       (n : String) (s : Schema),
      parse_line [Statement.CreateTable (p :: ps) columns] =
        Except.ok (Line.CreateTable n s) → n = p) ∧
    (∀ (p : Ident) (ps : List Ident) (source : Option InsertSource)
       (n : String) (rows : List (List ColumnValue)),
      parse_line [Statement.Insert (p :: ps) source] =
        Except.ok (Line.InsertInto n rows) → n = p) ∧
    parse_line [Statement.CreateTable ["db", "table"] []] =
      Except.ok (Line.CreateTable "db" []) ∧
    parse_line [Statement.Insert ["db", "table"]
        (some (InsertSource.Values [[Expr.Value (Value.Number "1")]]))] =
      Except.ok (Line.InsertInto "db" [[ColumnValue.Integer 1]]) := by
  refine ⟨?_, ?_, rfl, rfl⟩
  · intro p ps columns n s h
    simp only [parse_line, parse_create_table] at h
    cases hm : columns.mapM fun column => do
        let column_type ← mapDataType column.data_type
        pure (ColumnDef.mk column.name (nullable_from_options column.options) column_type)
    case error e => rw [hm] at h; simp [Bind.bind, Except.bind] at h
    case ok sch =>
      rw [hm] at h
      simp only [Bind.bind, Except.bind, Except.ok.injEq, Line.CreateTable.injEq] at h
      exact h.1.symm
  · intro p ps source n rows h
    cases source with
    | none => simp [parse_line, parse_insert] at h
    | some src =>
      cases src with
      | OtherSource => simp [parse_line, parse_insert] at h
      | Values vrows =>
        simp only [parse_line, parse_insert, List.head?_cons] at h
        cases hm : vrows.mapM fun r => r.mapM parse_value_expr
        case error e => rw [hm] at h; simp [Bind.bind, Except.bind] at h
        case ok rs =>
          rw [hm] at h
          simp only [Bind.bind, Except.bind, Except.ok.injEq, Line.InsertInto.injEq] at h
          exact h.1.symm

/-- Witness for C10: the first component of `db.table` is `db`. -/
theorem table_name_is_first_component_witness :
    "db" = "db" :=
  table_name_is_first_component.1 "db" ["table"] [] "db" [] rfl

/-- C4: an accepted bare numeric literal without a dot carries the INTEGER
tag with its non-negative parsed magnitude, one with a dot carries the FLOAT
tag with its non-negative parsed magnitude, and parsing a unary minus over a
numeric literal is exactly the bare parse followed by numeric negation (the
sign is folded into the value). -/
theorem numeric_literal_tags_and_sign :
    ∀ num : String,
      ((num.toList.contains '.' = false →
          ∀ v, parse_value_expr (Expr.Value (Value.Number num)) = Except.ok v →
            ∃ n : Int, v = ColumnValue.Integer n ∧ parse_i64 num = some n ∧ 0 ≤ n) ∧
       (num.toList.contains '.' = true →
          ∀ v, parse_value_expr (Expr.Value (Value.Number num)) = Except.ok v →
            ∃ q : Rat, v = ColumnValue.Float q ∧ parse_f64 num = some q ∧ 0 ≤ q)) ∧
      parse_value_expr (Expr.UnaryOp true (Expr.Value (Value.Number num))) =
        (parse_value_expr (Expr.Value (Value.Number num))).map neg_column_value := by
  intro num
  refine ⟨⟨?_, ?_⟩, ?_⟩
  · intro hdot v hv
    simp only [parse_value_expr, parse_number_value, hdot, Bool.false_eq_true,
      if_false] at hv
    cases hp : parse_i64 num
    case none => rw [hp] at hv; simp at hv
    case some n =>
      rw [hp] at hv
      simp only [Except.ok.injEq] at hv
      refine ⟨n, hv.symm, rfl, ?_⟩
      have : ∃ m : Nat, n = Int.ofNat m := by
        simp only [parse_i64, Bind.bind, Option.bind] at hp
        cases hd : digitsToNat? num.toList
        · rw [hd] at hp; simp at hp
        · rw [hd] at hp
          simp only at hp
          split at hp
          · exact ⟨_, (Option.some.injEq _ _ ▸ hp).symm⟩
          · simp at hp
      rcases this with ⟨m, rfl⟩
      exact Int.ofNat_nonneg m
  · intro hdot v hv
    simp only [parse_value_expr, parse_number_value, hdot, if_true] at hv
    cases hp : parse_f64 num
    case none => rw [hp] at hv; simp at hv
    case some q =>
      rw [hp] at hv
      simp only [Except.ok.injEq] at hv
      refine ⟨q, hv.symm, rfl, ?_⟩
      simp only [parse_f64] at hp
      split at hp
      case h_1 ip fp heq =>
        split at hp
        · have hq : q = (decDigitsVal ip : Rat) +
              (decDigitsVal fp : Rat) / ((10 : Rat) ^ fp.length) := by
            simpa using hp.symm
          rw [hq]
          positivity
        · simp at hp
      case h_2 => simp at hp
  · simp only [parse_value_expr, parse_number_value, if_true]
    by_cases hdot : num.toList.contains '.'
    · simp only [hdot, if_true]
      cases hp : parse_f64 num <;> simp [Except.map, neg_column_value]
    · simp only [hdot, Bool.false_eq_true, if_false]
      cases hp : parse_i64 num <;> simp [Except.map, neg_column_value]

/-- Witness for C4 at the literals 123 and 12.5. -/
theorem numeric_literal_tags_and_sign_witness :
    (∃ n : Int, ColumnValue.Integer 123 = ColumnValue.Integer n ∧
      parse_i64 "123" = some n ∧ 0 ≤ n) ∧
    parse_value_expr (Expr.UnaryOp true (Expr.Value (Value.Number "12.5"))) =
      (parse_value_expr (Expr.Value (Value.Number "12.5"))).map neg_column_value :=
  ⟨(numeric_literal_tags_and_sign "123").1.1 rfl (ColumnValue.Integer 123) rfl,
   (numeric_literal_tags_and_sign "12.5").2⟩

/-- C5: a TIMESTAMP column accepts only STRING or NULL (Integer, Float and
Boolean tags are fatal); a STRING is parsed by the fixed-offset extraction
at positions 0..4, 5..7, 8..10, 11..13, 14..16, 17..19, a valid civil
date-time is encoded as seconds since the epoch in UTC, and a non-existent
civil date or time is fatal; the claim examples are reproduced
(2012-01-02 12:55:22 is 1325508922, February 30 is fatal). -/
theorem timestamp_column_encoding :
    (∀ i : Int, encode_value ColumnType.Timestamp (ColumnValue.Integer i) =
        Except.error "Value for column should be a string") ∧
    (∀ q : Rat, encode_value ColumnType.Timestamp (ColumnValue.Float q) =
        Except.error "Value for column should be a string") ∧
    (∀ b : Bool, encode_value ColumnType.Timestamp (ColumnValue.Boolean b) =
        Except.error "Value for column should be a string") ∧
    encode_value ColumnType.Timestamp ColumnValue.Null = Except.ok CellValue.cellNull ∧
    (∀ s : String, encode_value ColumnType.Timestamp (ColumnValue.String s) =
        (parse_timestamp s.toList).map CellValue.cellInt) ∧
    (∀ (s : String) (y : Int) (mo d h mi se : Nat),
      slice_parse_year s.toList = some y →
      slice_parse_nat s.toList 5 7 = some mo →
      slice_parse_nat s.toList 8 10 = some d →
      slice_parse_nat s.toList 11 13 = some h →
      slice_parse_nat s.toList 14 16 = some mi →
      slice_parse_nat s.toList 17 19 = some se →
      (valid_ymd y mo d = true → valid_hms h mi se = true →
        encode_value ColumnType.Timestamp (ColumnValue.String s) =
          Except.ok (CellValue.cellInt (days_from_civil y mo d * 86400 +
            ((h * 3600 + mi * 60 + se : Nat) : Int)))) ∧
      (valid_ymd y mo d = false →
        encode_value ColumnType.Timestamp (ColumnValue.String s) =
          Except.error "Unable to create date") ∧
      (valid_ymd y mo d = true → valid_hms h mi se = false →
        encode_value ColumnType.Timestamp (ColumnValue.String s) =
          Except.error "Unable to create time")) ∧
    encode_value ColumnType.Timestamp (ColumnValue.String "2012-01-02 12:55:22") =
      Except.ok (CellValue.cellInt 1325508922) ∧
    encode_value ColumnType.Timestamp (ColumnValue.String "2023-02-30 00:00:00") =
      Except.error "Unable to create date" := by
  refine ⟨fun i => rfl, fun q => rfl, fun b => rfl, rfl, fun s => rfl, ?_, rfl, rfl⟩
  intro s y mo d h mi se h1 h2 h3 h4 h5 h6
  simp only [String.toList] at h1 h2 h3 h4 h5 h6
  refine ⟨?_, ?_, ?_⟩
  · intro hv ht
    simp [encode_value, parse_timestamp, expectSome, h1, h2, h3, h4, h5, h6,
      Bind.bind, Except.bind, hv, ht, Except.map]
  · intro hv
    simp [encode_value, parse_timestamp, expectSome, h1, h2, h3, h4, h5, h6,
      Bind.bind, Except.bind, hv, Except.map]
  · intro hv ht
    simp [encode_value, parse_timestamp, expectSome, h1, h2, h3, h4, h5, h6,
      Bind.bind, Except.bind, hv, ht, Except.map]

/-- Witness for C5 at the timestamp of the claim example. -/
theorem timestamp_column_encoding_witness :
    encode_value ColumnType.Timestamp (ColumnValue.String "2012-01-02 12:55:22") =
      Except.ok (CellValue.cellInt (days_from_civil 2012 1 2 * 86400 +
        ((12 * 3600 + 55 * 60 + 22 : Nat) : Int))) :=
  (timestamp_column_encoding.2.2.2.2.2.1 "2012-01-02 12:55:22"
    2012 1 2 12 55 22 rfl rfl rfl rfl rfl rfl).1 rfl rfl

/-- Appending the `.parquet` suffix is injective on table names. -/
theorem append_parquet_injective :
    Function.Injective (fun t : String => t ++ ".parquet") := by
  intro a b h
  have hd : a.data ++ ".parquet".data = b.data ++ ".parquet".data := by
    have h2 := congrArg String.data h
    simpa [String.data_append] using h2
  have h3 := List.append_cancel_right hd
  cases a
  cases b
  exact congrArg String.mk h3

/-- The files created along a successful writer run are exactly one
`<table>.parquet` per `CreateTable` event, in stream order. -/
theorem created_files_run_writer_from :
    ∀ (lines : List Line) (w : WriterState) (st : WriterState) (acts : List Action),
      run_writer_from w lines = Except.ok (st, acts) →
      created_files acts = (create_table_names lines).map (fun t => t ++ ".parquet") := by
  intro lines
  induction lines with
  | nil =>
    intro w st acts h
    simp only [run_writer_from, Except.ok.injEq, Prod.mk.injEq] at h
    simp [← h.2, created_files, create_table_names]
  | cons l ls ih =>
    intro w st acts h
    simp only [run_writer_from, Bind.bind, Except.bind] at h
    cases h1 : new_line w l
    case error e => rw [h1] at h; simp at h
    case ok p =>
      obtain ⟨w2, a⟩ := p
      rw [h1] at h
      dsimp only at h
      cases h2 : run_writer_from w2 ls
      case error e => rw [h2] at h; simp at h
      case ok p2 =>
        obtain ⟨w3, rest⟩ := p2
        rw [h2] at h
        dsimp only at h
        simp only [Except.ok.injEq, Prod.mk.injEq] at h
        have hacts : acts = a ++ rest := h.2.symm
        subst hacts
        rw [created_files, List.filterMap_append]
        have hrest := ih w2 w3 rest h2
        cases l with
        | CreateTable table_name schema =>
          simp only [new_line, Bind.bind, Except.bind] at h1
          cases h3 : to_arrow_schema schema
          case error e => rw [h3] at h1; simp at h1
          case ok fs =>
            rw [h3] at h1
            simp only [Except.ok.injEq, Prod.mk.injEq] at h1
            have ha : a = [Action.createFile (table_name ++ ".parquet"),
                Action.openEncoder table_name] ++
                (match w.current_writer with
                 | some previous_writer => [Action.closeEncoder previous_writer.table_name]
                 | none => []) := h1.2.symm
            subst ha
            cases hw : w.current_writer <;>
              simp_all [created_files, create_table_names, created_file_name]
        | InsertInto table_name rows =>
          simp only [new_line] at h1
          by_cases hmatch : w.current_writer.map CurrentWriter.table_name ≠ some table_name
          · rw [if_pos hmatch] at h1
            simp only [Except.ok.injEq, Prod.mk.injEq] at h1
            have ha : a = [Action.logUnknownTable] := h1.2.symm
            subst ha
            simp_all [created_files, create_table_names, created_file_name]
          · rw [if_neg hmatch] at h1
            cases hw : w.current_writer with
            | none =>
              rw [hw] at h1
              simp_all [created_files, create_table_names, created_file_name]
            | some cw =>
              rw [hw] at h1
              simp only [Bind.bind, Except.bind] at h1
              cases h4 : write_rows cw.schema rows with
              | error e => rw [h4] at h1; simp at h1
              | ok cells =>
                rw [h4] at h1
                simp only [Except.ok.injEq, Prod.mk.injEq] at h1
                have ha : a = [Action.appendBatch table_name rows.length] := h1.2.symm
                subst ha
                simp_all [created_files, create_table_names, created_file_name]
        | NOP =>
          simp only [new_line, Except.ok.injEq, Prod.mk.injEq] at h1
          have ha : a = [] := h1.2.symm
          subst ha
          simp_all [created_files, create_table_names, created_file_name]

/-- C8 amended: on any stream the writer processes to completion, the file
creations are exactly one `<table>.parquet` per `CreateTable` event, and the
number of distinct output files equals the number of distinct table names
among the `CreateTable` events (so zero `CREATE TABLE` statements yield zero
output files). -/
theorem output_files_match_create_table_events :
    ∀ (lines : List Line) (st : WriterState) (acts : List Action),
      run_writer lines = Except.ok (st, acts) →
      created_files acts = (create_table_names lines).map (fun t => t ++ ".parquet") ∧
      output_file_count acts = (create_table_names lines).dedup.length := by
  intro lines st acts h
  simp only [run_writer, Bind.bind, Except.bind] at h
  cases h1 : run_writer_from (WriterState.mk none) lines
  case error e => rw [h1] at h; simp at h
  case ok p =>
    obtain ⟨w, a⟩ := p
    rw [h1] at h
    dsimp only at h
    simp only [Except.ok.injEq, Prod.mk.injEq] at h
    have hacts : acts = a ++ drop_actions w := h.2.symm
    subst hacts
    have hmain := created_files_run_writer_from lines (WriterState.mk none) w a h1
    have hdrop : created_files (drop_actions w) = [] := by
      cases hw : w.current_writer <;> simp [drop_actions, hw, created_files, created_file_name]
    have hcf : created_files (a ++ drop_actions w) =
        (create_table_names lines).map (fun t => t ++ ".parquet") := by
      rw [created_files, List.filterMap_append]
      rw [created_files] at hmain hdrop
      rw [hmain, hdrop, List.append_nil]
    refine ⟨hcf, ?_⟩
    rw [output_file_count, hcf, List.dedup_map_of_injective append_parquet_injective,
      List.length_map]

/-- Witness for C8 at a one-statement stream. -/
theorem output_files_match_create_table_events_witness :
    created_files [Action.createFile "t.parquet", Action.openEncoder "t",
        Action.closeEncoder "t"] =
      (create_table_names [Line.CreateTable "t" []]).map (fun t => t ++ ".parquet") ∧
    output_file_count [Action.createFile "t.parquet", Action.openEncoder "t",
        Action.closeEncoder "t"] =
      (create_table_names [Line.CreateTable "t" []]).dedup.length :=
  output_files_match_create_table_events [Line.CreateTable "t" []]
    (WriterState.mk (some (CurrentWriter.mk 0 "t" []))) _ rfl

/-- C8 counterexample: two distinct `CREATE TABLE` statements for the same
table name produce a single output file, so the output file count (1) does
not equal the number of distinct `CREATE TABLE` statements (2). -/
theorem file_count_differs_from_distinct_statements :
    run_writer [Line.CreateTable "t" [],
        Line.CreateTable "t" [ColumnDef.mk "c" true ColumnType.Integer]] =
      Except.ok (WriterState.mk (some (CurrentWriter.mk 0 "t"
          [ColumnDef.mk "c" true ColumnType.Integer])),
        [Action.createFile "t.parquet", Action.openEncoder "t",
         Action.createFile "t.parquet", Action.openEncoder "t",
         Action.closeEncoder "t", Action.closeEncoder "t"]) ∧
    output_file_count
        [Action.createFile "t.parquet", Action.openEncoder "t",
         Action.createFile "t.parquet", Action.openEncoder "t",
         Action.closeEncoder "t", Action.closeEncoder "t"] = 1 ∧
    distinct_create_table_count [Line.CreateTable "t" [],
        Line.CreateTable "t" [ColumnDef.mk "c" true ColumnType.Integer]] = 2 ∧
    (1 : Nat) ≠ 2 :=
  ⟨rfl, by decide, by decide, by decide⟩

/-- Dropping a false-prefix cannot remove a trailing character the predicate
rejects. -/
theorem getLast?_dropWhile (p : Char → Bool) (c : Char) (hc : p c = false) :
    ∀ l : List Char, l.getLast? = some c → (l.dropWhile p).getLast? = some c := by
  intro l
  induction l with
  | nil => intro h; simp at h
  | cons a t ih =>
    intro h
    rw [List.dropWhile_cons]
    by_cases ha : p a = true
    · rw [if_pos ha]
      cases t with
      | nil =>
        simp only [List.getLast?_singleton, Option.some.injEq] at h
        subst h
        rw [ha] at hc
        exact absurd hc (by simp)
      | cons b t2 =>
        rw [List.getLast?_cons_cons] at h
        exact ih h
    · rw [if_neg ha]
      exact h

/-- Trimming keeps a trailing non-whitespace character. -/
theorem getLast?_trimList (l : List Char) (c : Char) (hc : c.isWhitespace = false)
    (h : l.getLast? = some c) : (trimList l).getLast? = some c := by
  have h1 : (l.dropWhile Char.isWhitespace).getLast? = some c :=
    getLast?_dropWhile _ c hc l h
  have h2 : (l.dropWhile Char.isWhitespace).reverse.head? = some c := by
    rw [List.head?_reverse]; exact h1
  cases hx : (l.dropWhile Char.isWhitespace).reverse with
  | nil => rw [hx] at h2; simp at h2
  | cons a t =>
    rw [hx] at h2
    simp only [List.head?_cons, Option.some.injEq] at h2
    subst h2
    rw [trimList, hx, List.dropWhile_cons, hc]
    simp [List.getLast?_reverse]

/-- Invariant of the reader loop: no iteration ever emits a warning, and
every statement sent downstream ends with a semicolon. -/
theorem reader_invariant :
    ∀ (lines : List (List Char)) (st : ReaderState),
      st.warnings = [] →
      (∀ e ∈ st.emitted, e.getLast? = some ';') →
      (lines.foldl reader_step st).warnings = [] ∧
      ∀ e ∈ (lines.foldl reader_step st).emitted, e.getLast? = some ';' := by
  intro lines
  induction lines with
  | nil => intro st h1 h2; exact ⟨h1, h2⟩
  | cons raw rest ih =>
    intro st h1 h2
    rw [List.foldl_cons]
    apply ih
    · simp only [reader_step]
      split
      · exact h1
      · split <;> split <;> exact h1
    · intro e he
      simp only [reader_step] at he
      split at he
      · exact h2 e he
      · split at he <;> split at he
        · dsimp only at he
          simp only [List.mem_append, List.mem_singleton] at he
          rcases he with he | he
          · exact h2 e he
          · subst he
            refine getLast?_trimList _ _ (by decide) ?_
            assumption
        · exact h2 e he
        · dsimp only at he
          simp only [List.mem_append, List.mem_singleton] at he
          rcases he with he | he
          · exact h2 e he
          · subst he
            refine getLast?_trimList _ _ (by decide) ?_
            assumption
        · exact h2 e he

/-- C9 amended: for every input, the reader produces no warning diagnostic
at all, and every statement it emits downstream ends with the `;`
terminator — so a partial statement left in the accumulator at end-of-stream
is never emitted, but it is discarded silently rather than with the claimed
warning. -/
theorem reader_discards_partial_silently :
    ∀ lines : List (List Char),
      (run_reader lines).warnings = [] ∧
      ∀ e ∈ (run_reader lines).emitted, e.getLast? = some ';' := by
  intro lines
  exact reader_invariant lines (ReaderState.mk [] [] []) rfl
    (by intro e he; simp at he)

set_option maxRecDepth 8000 in
/-- Witness for C9 at a one-line terminated statement. -/
theorem reader_discards_partial_silently_witness :
    (run_reader ["SELECT 1;".toList]).warnings = [] ∧
    ("SELECT 1;".toList).getLast? = some ';' :=
  ⟨(reader_discards_partial_silently ["SELECT 1;".toList]).1,
   (reader_discards_partial_silently ["SELECT 1;".toList]).2
     ("SELECT 1;".toList) (by decide)⟩

set_option maxRecDepth 8000 in
/-- C9 counterexample: a stream ending with an unterminated statement leaves
it in the accumulator, emits nothing, and produces NO warning — the warning
list of the final reader state is empty, refuting the claimed diagnostic. -/
theorem eof_partial_statement_without_warning :
    run_reader ["CREATE TABLE foo (".toList] =
      ReaderState.mk [] ("CREATE TABLE foo (".toList) [] ∧
    ("CREATE TABLE foo (".toList) ≠ ([] : List Char) :=
  ⟨by decide, by decide⟩

end Mysqldump
